import Mathlib

/-!
Verification of the like/unlike toggle of the `posts` Django app
(`posts/views.py`, `like_toggle` and the three views `like_post`,
`like_comment`, `like_reply`, plus migration
`0010_likedcomment_comment_likes`).

The shallow embedding below translates the wrapper produced by
`like_toggle(model)`:

    post = get_object_or_404(model, id=kwargs.get("pk"))
    user_exist = post.likes.filter(username=request.user.username).exists()
    if post.author != request.user:
        if user_exist:
            post.likes.remove(request.user)
        else:
            post.likes.add(request.user)
    return func(request, post)

Users carry a primary key and a username: the membership test filters by
username while the author guard and add/remove act on user identity, and
that distinction is preserved here.  The persistence collaborator is an
association list from entity id to entity; `get_object_or_404` is a lookup
returning `none` for Http404, `add` inserts a row unless one with the same
user pk exists, `remove` deletes the rows with that user pk.
-/

/-- A user of the external auth collaborator: a primary key plus the
`username` field used by the membership filter. -/
structure User where
  id : Nat
  username : String
deriving DecidableEq, Repr

/-- A likeable entity (Post, Comment or Reply): an `author` and the
many-to-many `likes` relation, modelled as the list of user rows of the
join table for this entity. -/
structure Entity where
  author : User
  likes : List User
deriving DecidableEq, Repr

/-- `post.likes.filter(username=uname).exists()`: the membership test the
wrapper uses to pick the remove-versus-add branch. -/
def likesExistsByUsername (likes : List User) (uname : String) : Bool :=
  likes.any (fun v => v.username == uname)

/-- `post.likes.remove(user)`: delete the join rows whose user has this
identity. -/
def likesRemove (likes : List User) (u : User) : List User :=
  likes.filter (fun v => decide (v ≠ u))

/-- `post.likes.add(user)`: insert a join row unless one with the same user
identity is already present. -/
def likesAdd (likes : List User) (u : User) : List User :=
  if u ∈ likes then likes else likes ++ [u]

/-- The mutation step of the wrapper: compute `user_exist` by the username
filter, guard on `post.author != request.user` by identity, then remove or
add by identity. -/
def toggleEntity (u : User) (e : Entity) : Entity :=
  if e.author ≠ u then
    if likesExistsByUsername e.likes u.username then
      { e with likes := likesRemove e.likes u }
    else
      { e with likes := likesAdd e.likes u }
  else
    e

/-- The persistence collaborator for one entity kind: rows indexed by the
unique entity id. -/
abbrev Db := List (Nat × Entity)

/-- Find-by-id, `none` when no row has the id (`get_object_or_404` raising
Http404). -/
def dbLookup : Db → Nat → Option Entity
  | [], _ => none
  | (k, e) :: rest, pk => if k = pk then some e else dbLookup rest pk

/-- Persist a new value for every row carrying the id; rows with other ids
are untouched. -/
def dbUpdate : Db → Nat → Entity → Db
  | [], _, _ => []
  | (k, e0) :: rest, pk, e =>
    if k = pk then (k, e) :: dbUpdate rest pk e else (k, e0) :: dbUpdate rest pk e

/-- Outcome of one wrapper invocation: Http404, or the rendered response of
the wrapped view. -/
inductive ToggleOutcome (R : Type) where
  | notFound
  | ok (r : R)
deriving DecidableEq, Repr

/-- Map a function over the `ok` payload. -/
def ToggleOutcome.mapR {R S : Type} (f : R → S) : ToggleOutcome R → ToggleOutcome S
  | notFound => notFound
  | ok r => ok (f r)

/-- The wrapper built by `like_toggle(model)(func)`: look the entity up by
id (Http404 leaves the store untouched), run the toggle mutation, persist
it, and hand the (possibly unmodified) entity to the continuation `func`. -/
def runToggle {R : Type} (k : Entity → R) (db : Db) (u : User) (pk : Nat) :
    ToggleOutcome R × Db :=
  match dbLookup db pk with
  | none => (.notFound, db)
  | some e =>
    let e2 := toggleEntity u e
    (.ok (k e2), dbUpdate db pk e2)

/-- The whole persisted state: one table per likeable entity kind. -/
structure Store where
  posts : Db
  comments : Db
  replies : Db
deriving DecidableEq, Repr

/-- The response fragment a view renders: one snippet template per kind,
receiving the entity. -/
inductive Rendered where
  | likesSnippet (post : Entity)
  | likesCommentSnippet (comment : Entity)
  | likesReplySnippet (reply : Entity)
deriving DecidableEq, Repr

/-- `render(request, "snippets/likes.html", {"post": post})`. -/
def like_post_render (e : Entity) : Rendered := .likesSnippet e

/-- `render(request, "snippets/likes_comment.html", {"comment": post})`. -/
def like_comment_render (e : Entity) : Rendered := .likesCommentSnippet e

/-- `render(request, "snippets/likes_reply.html", {"reply": post})`. -/
def like_reply_render (e : Entity) : Rendered := .likesReplySnippet e

/-- View `like_post`: `like_toggle(Post)` wrapping the post snippet. -/
def like_post (s : Store) (u : User) (pk : Nat) : ToggleOutcome Rendered × Store :=
  let r := runToggle like_post_render s.posts u pk
  (r.1, { s with posts := r.2 })

/-- View `like_comment`: `like_toggle(Comment)` wrapping the comment
snippet. -/
def like_comment (s : Store) (u : User) (pk : Nat) : ToggleOutcome Rendered × Store :=
  let r := runToggle like_comment_render s.comments u pk
  (r.1, { s with comments := r.2 })

/-- View `like_reply`: `like_toggle(Reply)` wrapping the reply snippet. -/
def like_reply (s : Store) (u : User) (pk : Nat) : ToggleOutcome Rendered × Store :=
  let r := runToggle like_reply_render s.replies u pk
  (r.1, { s with replies := r.2 })

/-- Extract the entity a rendered snippet received. -/
def renderedEntity : Rendered → Entity
  | .likesSnippet e => e
  | .likesCommentSnippet e => e
  | .likesReplySnippet e => e

/-- `n` successive wrapper mutations by the same user on the same entity. -/
def toggleN : Nat → User → Entity → Entity
  | 0, _, e => e
  | n + 1, u, e => toggleEntity u (toggleN n u e)

/-- The username filter identifies `u` inside `likes`: no other member of
`likes` carries `u`'s username.  The external auth collaborator (Django's
`User` model, `username` unique) guarantees this for every real state. -/
def usernamesDetermine (likes : List User) (u : User) : Prop :=
  ∀ v ∈ likes, v.username = u.username → v = u

instance (likes : List User) (u : User) : Decidable (usernamesDetermine likes u) := by
  unfold usernamesDetermine
  infer_instance

/-! ### The join table of migration `0010_likedcomment_comment_likes`

The migration creates `LikedComment` with an auto primary key `id`, a
`created` timestamp and two cascading foreign keys `comment` and `user`,
and wires `Comment.likes` through it.  It declares no other constraint:
in particular no unique-together on the pair (comment, user). -/

/-- A row of the `LikedComment` through table. -/
structure LikedCommentRow where
  id : Nat
  created : Nat
  comment : Nat
  user : Nat
deriving DecidableEq, Repr

/-- Primary-key uniqueness over a table. -/
def pkUnique : List LikedCommentRow → Bool
  | [] => true
  | r :: rs => rs.all (fun s => r.id != s.id) && pkUnique rs

/-- Everything migration 0010 makes the store enforce on the
`LikedComment` table: the auto primary key is unique and the two foreign
keys resolve.  The migration declares no further constraint. -/
def likedCommentTableValid (commentIds userIds : List Nat) (rows : List LikedCommentRow) : Bool :=
  pkUnique rows &&
    rows.all (fun r => commentIds.contains r.comment && userIds.contains r.user)

/-- Pair uniqueness of (comment, user) over a table: the property the spec
attributes to the schema. -/
def pairUnique : List LikedCommentRow → Bool
  | [] => true
  | r :: rs => rs.all (fun s => !(r.comment == s.comment && r.user == s.user)) && pairUnique rs

/-! ### Concrete sample data used by witnesses -/

/-- Sample author. -/
def uAlice : User := ⟨1, "alice"⟩

/-- Sample non-author user. -/
def uBob : User := ⟨2, "bob"⟩

/-- Second sample non-author user. -/
def uCarol : User := ⟨3, "carol"⟩

/-- Entity with no likes yet. -/
def entNoLikes : Entity := ⟨uAlice, []⟩

/-- Entity already liked by Bob. -/
def entBobLiked : Entity := ⟨uAlice, [uBob]⟩

/-- One-row sample table. -/
def dbOne : Db := [(1, entBobLiked)]

/-- Entity whose author is (anomalously) already inside the likes set. -/
def entSelfLiked : Entity := ⟨uAlice, [uAlice]⟩

/-- One-row sample table holding `entSelfLiked`. -/
def dbSelf : Db := [(1, entSelfLiked)]

/-! ### Helper lemmas shared by the claim theorems -/

theorem mem_likesRemove (likes : List User) (u v : User) :
    v ∈ likesRemove likes u ↔ v ∈ likes ∧ v ≠ u := by
  simp [likesRemove, List.mem_filter]

theorem mem_likesAdd (likes : List User) (u v : User) :
    v ∈ likesAdd likes u ↔ v ∈ likes ∨ v = u := by
  unfold likesAdd
  by_cases h : u ∈ likes
  · rw [if_pos h]
    constructor
    · exact Or.inl
    · rintro (hv | rfl)
      · exact hv
      · exact h
  · rw [if_neg h]
    simp [List.mem_append]

theorem likesExists_iff (likes : List User) (u : User)
    (hinj : usernamesDetermine likes u) :
    likesExistsByUsername likes u.username = true ↔ u ∈ likes := by
  unfold likesExistsByUsername
  rw [List.any_eq_true]
  constructor
  · rintro ⟨v, hv, hb⟩
    have hname : v.username = u.username := by simpa using hb
    exact hinj v hv hname ▸ hv
  · intro hu
    exact ⟨u, hu, by simp⟩

theorem toggle_author_eq (u : User) (e : Entity) :
    (toggleEntity u e).author = e.author := by
  unfold toggleEntity
  by_cases ha : e.author ≠ u
  · rw [if_pos ha]
    by_cases hb : likesExistsByUsername e.likes u.username = true
    · rw [if_pos hb]
    · rw [if_neg hb]
  · rw [if_neg ha]

theorem toggle_author_self (e : Entity) : toggleEntity e.author e = e := by
  unfold toggleEntity
  simp

/-- The central flip lemma: for a non-author whose username identifies them
inside `likes`, the toggle flips the actor's membership and leaves every
other user's membership unchanged. -/
theorem mem_toggle_likes (u : User) (e : Entity) (v : User)
    (hauth : e.author ≠ u) (hinj : usernamesDetermine e.likes u) :
    v ∈ (toggleEntity u e).likes ↔
      (if v = u then u ∉ e.likes else v ∈ e.likes) := by
  have hex := likesExists_iff e.likes u hinj
  unfold toggleEntity
  rw [if_pos hauth]
  by_cases hm : u ∈ e.likes
  · rw [if_pos (hex.mpr hm)]
    by_cases hv : v = u
    · subst hv
      simp [mem_likesRemove, hm]
    · simp [mem_likesRemove, hv]
  · have : likesExistsByUsername e.likes u.username = false := by
      rcases Bool.eq_false_or_eq_true (likesExistsByUsername e.likes u.username) with h | h
      · exact absurd (hex.mp h) hm
      · exact h
    rw [this]
    by_cases hv : v = u
    · subst hv
      simp [mem_likesAdd, hm]
    · simp [mem_likesAdd, hv, hm]

/-- Whatever the branch, a member of the toggled set was a member before or
is the actor. -/
theorem mem_toggle_cases (u : User) (e : Entity) (v : User)
    (hv : v ∈ (toggleEntity u e).likes) : v ∈ e.likes ∨ v = u := by
  unfold toggleEntity at hv
  by_cases ha : e.author ≠ u
  · rw [if_pos ha] at hv
    by_cases hb : likesExistsByUsername e.likes u.username = true
    · rw [if_pos hb] at hv
      exact Or.inl ((mem_likesRemove e.likes u v).mp hv).1
    · rw [if_neg hb] at hv
      exact (mem_likesAdd e.likes u v).mp hv
  · rw [if_neg ha] at hv
    exact Or.inl hv

theorem usernamesDetermine_toggle (u : User) (e : Entity)
    (hinj : usernamesDetermine e.likes u) :
    usernamesDetermine (toggleEntity u e).likes u := by
  intro v hv hname
  rcases mem_toggle_cases u e v hv with hmem | rfl
  · exact hinj v hmem hname
  · rfl

theorem dbUpdate_not_mem (db : Db) (pk : Nat) (e : Entity)
    (h : ∀ p ∈ db, p.1 ≠ pk) : dbUpdate db pk e = db := by
  induction db with
  | nil => rfl
  | cons hd tl ih =>
    obtain ⟨k, e0⟩ := hd
    have hk : k ≠ pk := h (k, e0) (List.mem_cons_self _ _)
    rw [dbUpdate, if_neg hk, ih (fun p hp => h p (List.mem_cons_of_mem _ hp))]

/-- Writing back the very value the lookup returned is a no-op on a table
with unique ids. -/
theorem dbUpdate_self (db : Db) (pk : Nat) (e : Entity)
    (hnodup : (db.map Prod.fst).Nodup) (hlook : dbLookup db pk = some e) :
    dbUpdate db pk e = db := by
  induction db with
  | nil => simp [dbLookup] at hlook
  | cons hd tl ih =>
    obtain ⟨k, e0⟩ := hd
    rw [List.map_cons, List.nodup_cons] at hnodup
    by_cases hk : k = pk
    · subst hk
      rw [dbLookup, if_pos rfl] at hlook
      have he : e0 = e := by injection hlook
      have hkeys : ∀ p ∈ tl, p.1 ≠ k := by
        intro p hp hpk
        have hmem : p.1 ∈ List.map Prod.fst tl := List.mem_map_of_mem Prod.fst hp
        rw [hpk] at hmem
        exact hnodup.1 hmem
      rw [dbUpdate, if_pos rfl, ← he, dbUpdate_not_mem tl k e0 hkeys]
    · rw [dbLookup, if_neg hk] at hlook
      rw [dbUpdate, if_neg hk, ih hnodup.2 hlook]

theorem dbLookup_update_ne (db : Db) (pk q : Nat) (e : Entity) (hne : q ≠ pk) :
    dbLookup (dbUpdate db pk e) q = dbLookup db q := by
  induction db with
  | nil => rfl
  | cons hd tl ih =>
    obtain ⟨k, e0⟩ := hd
    by_cases hk : k = pk
    · subst hk
      rw [dbUpdate, if_pos rfl, dbLookup, if_neg (fun h => hne h.symm),
        dbLookup, if_neg (fun h => hne h.symm), ih]
    · rw [dbUpdate, if_neg hk, dbLookup, dbLookup]
      by_cases hq : k = q
      · rw [if_pos hq, if_pos hq]
      · rw [if_neg hq, if_neg hq, ih]

theorem dbLookup_update_eq (db : Db) (pk : Nat) (e0 e : Entity)
    (hlook : dbLookup db pk = some e0) :
    dbLookup (dbUpdate db pk e) pk = some e := by
  induction db with
  | nil => simp [dbLookup] at hlook
  | cons hd tl ih =>
    obtain ⟨k, e1⟩ := hd
    by_cases hk : k = pk
    · subst hk
      rw [dbUpdate, if_pos rfl, dbLookup, if_pos rfl]
    · rw [dbLookup, if_neg hk] at hlook
      rw [dbUpdate, if_neg hk, dbLookup, if_neg hk, ih hlook]

/-- Invariants of the iterated toggle by one non-author user: the author is
stable, the username hypothesis is preserved, the actor's membership tracks
the parity of the iteration count, everybody else's membership is
untouched. -/
theorem toggleN_spec (u : User) (e : Entity)
    (hauth : e.author ≠ u) (hinj : usernamesDetermine e.likes u) (n : Nat) :
    (toggleN n u e).author = e.author ∧
    usernamesDetermine (toggleN n u e).likes u ∧
    (u ∈ (toggleN n u e).likes ↔ (u ∈ e.likes ↔ n % 2 = 0)) ∧
    (∀ v, v ≠ u → (v ∈ (toggleN n u e).likes ↔ v ∈ e.likes)) := by
  induction n with
  | zero =>
    refine ⟨rfl, hinj, ?_, fun v _ => Iff.rfl⟩
    simp [toggleN]
  | succ n ih =>
    obtain ⟨iha, ihinj, ihu, ihv⟩ := ih
    have hauth' : (toggleN n u e).author ≠ u := by rw [iha]; exact hauth
    refine ⟨?_, ?_, ?_, ?_⟩
    · rw [toggleN, toggle_author_eq, iha]
    · exact usernamesDetermine_toggle u _ ihinj
    · rw [toggleN, mem_toggle_likes u _ u hauth' ihinj, if_pos rfl]
      rw [show (u ∉ (toggleN n u e).likes) = ¬ (u ∈ (toggleN n u e).likes) from rfl, ihu]
      have hpar : (n + 1) % 2 = 0 ↔ ¬ n % 2 = 0 := by omega
      rw [hpar]
      tauto
    · intro v hv
      rw [toggleN, mem_toggle_likes u _ v hauth' ihinj, if_neg hv, ihv v hv]

/-! ### Claim theorems -/

/-- C1: for a non-author acting user, the toggle removes them from the
likes set when they are a member, adds them when they are not, and changes
no other user's membership.  (The actor's username identifies them inside
the set, as Django's unique `User.username` guarantees.) -/
theorem toggle_nonauthor_membership (u : User) (e : Entity)
    (hauth : e.author ≠ u) (hinj : usernamesDetermine e.likes u) :
    (u ∈ e.likes → u ∉ (toggleEntity u e).likes) ∧
    (u ∉ e.likes → u ∈ (toggleEntity u e).likes) ∧
    (∀ v, v ≠ u → (v ∈ (toggleEntity u e).likes ↔ v ∈ e.likes)) := by
  refine ⟨?_, ?_, ?_⟩
  · intro hm
    rw [mem_toggle_likes u e u hauth hinj, if_pos rfl]
    exact not_not_intro hm
  · intro hm
    rw [mem_toggle_likes u e u hauth hinj, if_pos rfl]
    exact hm
  · intro v hv
    rw [mem_toggle_likes u e v hauth hinj, if_neg hv]

theorem toggle_nonauthor_membership_w :
    uBob ∈ (toggleEntity uBob entNoLikes).likes :=
  (toggle_nonauthor_membership uBob entNoLikes (by decide) (by decide)).2.1 (by decide)

/-- C2: a toggle invoked by the entity's author mutates nothing, raises no
error, and hands the unchanged entity to the continuation, whatever the
starting likes set. -/
theorem toggle_author_noop {R : Type} (k : Entity → R) (db : Db) (pk : Nat) (e : Entity)
    (hnodup : (db.map Prod.fst).Nodup) (hlook : dbLookup db pk = some e) :
    toggleEntity e.author e = e ∧
    runToggle k db e.author pk = (.ok (k e), db) := by
  refine ⟨toggle_author_self e, ?_⟩
  have h2 : runToggle k db e.author pk =
      (.ok (k (toggleEntity e.author e)), dbUpdate db pk (toggleEntity e.author e)) := by
    unfold runToggle
    rw [hlook]
  rw [h2, toggle_author_self e, dbUpdate_self db pk e hnodup hlook]

theorem toggle_author_noop_w :
    toggleEntity entSelfLiked.author entSelfLiked = entSelfLiked ∧
    runToggle like_post_render dbSelf entSelfLiked.author 1 =
      (.ok (like_post_render entSelfLiked), dbSelf) :=
  toggle_author_noop like_post_render dbSelf 1 entSelfLiked (by decide) (by decide)

/-- C3: a non-author toggling an even number of times restores the original
likes set; an odd number of times yields exactly the symmetric difference
with the singleton of the actor. -/
theorem toggleN_parity (u : User) (e : Entity) (n : Nat)
    (hauth : e.author ≠ u) (hinj : usernamesDetermine e.likes u) :
    (n % 2 = 0 → ∀ v, v ∈ (toggleN n u e).likes ↔ v ∈ e.likes) ∧
    (n % 2 = 1 → ∀ v, v ∈ (toggleN n u e).likes ↔
      ((v ∈ e.likes ∧ v ≠ u) ∨ (v = u ∧ u ∉ e.likes))) := by
  obtain ⟨-, -, hu, hv⟩ := toggleN_spec u e hauth hinj n
  constructor
  · intro heven v
    by_cases hvu : v = u
    · subst hvu
      rw [hu]
      simp [heven]
    · exact hv v hvu
  · intro hodd v
    have hne : ¬ n % 2 = 0 := by omega
    by_cases hvu : v = u
    · subst hvu
      rw [hu]
      simp only [hne, iff_false]
      tauto
    · rw [hv v hvu]
      simp only [hvu]
      tauto

theorem toggleN_parity_w :
    uBob ∈ (toggleN 2 uBob entBobLiked).likes ↔ uBob ∈ entBobLiked.likes :=
  (toggleN_parity uBob entBobLiked 2 (by decide) (by decide)).1 (by decide) uBob

/-- C4: a toggle on an id that resolves to no entity returns Http404 and
leaves the persisted table exactly as it was. -/
theorem toggle_notfound {R : Type} (k : Entity → R) (db : Db) (u : User) (pk : Nat)
    (habs : dbLookup db pk = none) :
    runToggle k db u pk = (.notFound, db) := by
  unfold runToggle
  rw [habs]

theorem toggle_notfound_w :
    runToggle like_post_render dbOne uCarol 99 = (.notFound, dbOne) :=
  toggle_notfound like_post_render dbOne uCarol 99 (by decide)

/-- C5 counterexample: a `LikedComment` table satisfying everything the
migration declares (unique primary key, resolving foreign keys) can hold
two rows with the same (comment, user) pair: the schema does not enforce
pair uniqueness. -/
theorem likedcomment_join_pair_not_enforced :
    likedCommentTableValid [5] [7] [⟨1, 0, 5, 7⟩, ⟨2, 1, 5, 7⟩] = true ∧
    pairUnique [⟨1, 0, 5, 7⟩, ⟨2, 1, 5, 7⟩] = false := by
  constructor <;> rfl

/-- C5 amended: at-most-once membership is an application-level invariant:
the toggle mutation preserves duplicate-freeness of an entity's likes
rows; the migration itself declares no unique constraint on the pair. -/
theorem toggle_preserves_nodup (u : User) (e : Entity) (h : e.likes.Nodup) :
    (toggleEntity u e).likes.Nodup := by
  unfold toggleEntity
  by_cases ha : e.author ≠ u
  · rw [if_pos ha]
    by_cases hb : likesExistsByUsername e.likes u.username = true
    · rw [if_pos hb]
      exact h.filter _
    · rw [if_neg hb]
      unfold likesAdd
      by_cases hm : u ∈ e.likes
      · rw [if_pos hm]
        exact h
      · rw [if_neg hm]
        rw [List.nodup_append]
        refine ⟨h, List.nodup_singleton u, ?_⟩
        intro x hx hx1
        rw [List.mem_singleton] at hx1
        exact hm (hx1 ▸ hx)
  · rw [if_neg ha]
    exact h

theorem toggle_preserves_nodup_w : (toggleEntity uBob entBobLiked).likes.Nodup :=
  toggle_preserves_nodup uBob entBobLiked (by decide)

/-- C6: if the author is outside their entity's likes set, they are still
outside it after a toggle by any user: the toggle can never let the author
enter their own likes set. -/
theorem author_exclusion_invariant (u : User) (e : Entity)
    (h : e.author ∉ e.likes) :
    (toggleEntity u e).author ∉ (toggleEntity u e).likes := by
  rw [toggle_author_eq]
  intro hmem
  rcases mem_toggle_cases u e e.author hmem with hm | heq
  · exact h hm
  · have hself : toggleEntity u e = e := by
      rw [← heq]
      exact toggle_author_self e
    rw [hself] at hmem
    exact h hmem

theorem author_exclusion_invariant_w :
    (toggleEntity uBob entBobLiked).author ∉ (toggleEntity uBob entBobLiked).likes :=
  author_exclusion_invariant uBob entBobLiked (by decide)

/-- C7: starting from an empty likes set, two distinct non-author users
each toggling once produce the likes set containing exactly the two of
them, in either order of invocation. -/
theorem distinct_users_commute (e : Entity) (u1 u2 : User)
    (h1 : e.author ≠ u1) (h2 : e.author ≠ u2)
    (hname : u1.username ≠ u2.username) (h0 : e.likes = []) :
    ∀ v, (v ∈ (toggleEntity u2 (toggleEntity u1 e)).likes ↔ (v = u1 ∨ v = u2)) ∧
         (v ∈ (toggleEntity u1 (toggleEntity u2 e)).likes ↔ (v = u1 ∨ v = u2)) := by
  have hneq : u1 ≠ u2 := fun h => hname (h ▸ rfl)
  have s1 : toggleEntity u1 e = { e with likes := [u1] } := by
    simp [toggleEntity, likesExistsByUsername, likesAdd, h0, h1]
  have s2 : toggleEntity u2 { e with likes := [u1] } = { e with likes := [u1, u2] } := by
    simp [toggleEntity, likesExistsByUsername, likesAdd, h2, hname, hneq.symm]
  have s1' : toggleEntity u2 e = { e with likes := [u2] } := by
    simp [toggleEntity, likesExistsByUsername, likesAdd, h0, h2]
  have s2' : toggleEntity u1 { e with likes := [u2] } = { e with likes := [u2, u1] } := by
    simp [toggleEntity, likesExistsByUsername, likesAdd, h1, hname.symm, hneq]
  intro v
  constructor
  · rw [s1, s2]
    simp [List.mem_cons]
  · rw [s1', s2']
    simp [List.mem_cons]
    tauto

theorem distinct_users_commute_w :
    uCarol ∈ (toggleEntity uCarol (toggleEntity uBob entNoLikes)).likes ↔
      (uCarol = uBob ∨ uCarol = uCarol) :=
  ((distinct_users_commute entNoLikes uBob uCarol (by decide) (by decide)
      (by decide) (by decide)) uCarol).1

/-- C8: a successful toggle rewrites only the looked-up entity (its author
untouched), leaves every other id's row and the other entity-kind tables
unchanged, and hands the toggled entity to the continuation. -/
theorem toggle_frame_condition {R : Type} (k : Entity → R) (db : Db) (u : User) (pk : Nat)
    (e : Entity) (hlook : dbLookup db pk = some e) :
    runToggle k db u pk =
      (.ok (k (toggleEntity u e)), dbUpdate db pk (toggleEntity u e)) ∧
    (toggleEntity u e).author = e.author ∧
    dbLookup (dbUpdate db pk (toggleEntity u e)) pk = some (toggleEntity u e) ∧
    (∀ q, q ≠ pk → dbLookup (dbUpdate db pk (toggleEntity u e)) q = dbLookup db q) ∧
    (∀ s : Store, (like_post s u pk).2.comments = s.comments ∧
      (like_post s u pk).2.replies = s.replies) := by
  refine ⟨?_, toggle_author_eq u e, dbLookup_update_eq db pk e _ hlook,
    fun q hq => dbLookup_update_ne db pk q _ hq, fun s => ⟨rfl, rfl⟩⟩
  unfold runToggle
  rw [hlook]

theorem toggle_frame_condition_w :
    runToggle like_post_render dbOne uBob 1 =
      (.ok (like_post_render (toggleEntity uBob entBobLiked)),
        dbUpdate dbOne 1 (toggleEntity uBob entBobLiked)) :=
  (toggle_frame_condition like_post_render dbOne uBob 1 entBobLiked (by decide)).1

/-- C9: the three exposed views are instantiations of the single generic
toggle: modulo extracting the entity from the kind-specific snippet, each
acts on its own table exactly as the generic algorithm does. -/
theorem like_views_uniform (s : Store) (u : User) (pk : Nat) :
    ((like_post s u pk).1.mapR renderedEntity, (like_post s u pk).2.posts)
        = runToggle id s.posts u pk ∧
    ((like_comment s u pk).1.mapR renderedEntity, (like_comment s u pk).2.comments)
        = runToggle id s.comments u pk ∧
    ((like_reply s u pk).1.mapR renderedEntity, (like_reply s u pk).2.replies)
        = runToggle id s.replies u pk := by
  refine ⟨?_, ?_, ?_⟩
  · cases h : dbLookup s.posts pk <;>
      simp [like_post, runToggle, h, ToggleOutcome.mapR, like_post_render, renderedEntity]
  · cases h : dbLookup s.comments pk <;>
      simp [like_comment, runToggle, h, ToggleOutcome.mapR, like_comment_render, renderedEntity]
  · cases h : dbLookup s.replies pk <;>
      simp [like_reply, runToggle, h, ToggleOutcome.mapR, like_reply_render, renderedEntity]

/-- C10: the username-based membership filter selecting the
remove-versus-add branch agrees with identity-based membership exactly
under the assumption that the actor's username identifies them, and the
branch then taken matches identity membership. -/
theorem membership_test_username_vs_identity (u : User) (e : Entity)
    (hinj : usernamesDetermine e.likes u) :
    (likesExistsByUsername e.likes u.username = true ↔ u ∈ e.likes) ∧
    (e.author ≠ u → u ∈ e.likes → (toggleEntity u e).likes = likesRemove e.likes u) ∧
    (e.author ≠ u → u ∉ e.likes → (toggleEntity u e).likes = likesAdd e.likes u) := by
  have hex := likesExists_iff e.likes u hinj
  refine ⟨hex, ?_, ?_⟩
  · intro hauth hm
    unfold toggleEntity
    rw [if_pos hauth, if_pos (hex.mpr hm)]
  · intro hauth hm
    have hfalse : likesExistsByUsername e.likes u.username = false := by
      rcases Bool.eq_false_or_eq_true (likesExistsByUsername e.likes u.username) with h | h
      · exact absurd (hex.mp h) hm
      · exact h
    unfold toggleEntity
    rw [if_pos hauth, hfalse]
    rfl

theorem membership_test_username_vs_identity_w :
    likesExistsByUsername entBobLiked.likes uBob.username = true ↔ uBob ∈ entBobLiked.likes :=
  (membership_test_username_vs_identity uBob entBobLiked (by decide)).1
